import Mathlib

/-!
Verification of the form-runtime engine of the `formairfryer` repository
(`src/components/FormPreview.tsx`): the condition evaluator, the field
validator, the navigation resolver, the progress calculator and the
step-runtime timer behaviour, shallowly embedded in Lean.

JavaScript runtime values that can appear in the answer map are modelled
by `Value`; the platform coercions (`||` truthiness, `String(...)`,
`Number(...)`, `parseInt`) are modelled on the fragment of inputs the
form runtime produces (strings, integers, booleans, string arrays).
-/

deriving instance DecidableEq for Except

namespace FormRuntime

/-- An answer-map value: JS scalars (string/number/boolean), a string
array (checkbox/multiselect fields), or `null` standing for both JS
`null` and `undefined` (a missing key). -/
inductive Value where
  | null : Value
  | str (s : String) : Value
  | num (n : Rat) : Value
  | bool (b : Bool) : Value
  | arr (l : List String) : Value
deriving Repr, DecidableEq, BEq

/-- JS truthiness of a `Value`: `null`/`undefined`, `false`, `0` and
`''` are falsy; every array (even the empty one) is truthy. -/
def jsTruthy : Value → Bool
  | .null => false
  | .str s => s ≠ ""
  | .num n => n ≠ 0
  | .bool b => b
  | .arr _ => true

/-- Decimal rendering of an integer, as JS `String` renders it. -/
def intToString (i : Int) : String :=
  if i < 0 then "-" ++ toString i.natAbs else toString i.natAbs

/-- JS `String(n)` for a number, modelled on the integer-valued fragment
(the runtime's numeric answers are integers: ratings, sliders). -/
def ratToJsString (n : Rat) : String :=
  if n.den = 1 then intToString n.num
  else intToString n.num ++ "." ++ toString n.den

/-- JS `String(v)`: identity on strings, decimal on numbers,
`"true"`/`"false"` on booleans, `"null"` on null, comma-joined on
arrays (JS `Array.prototype.toString`). -/
def jsString : Value → String
  | .null => "null"
  | .str s => s
  | .num n => ratToJsString n
  | .bool b => if b then "true" else "false"
  | .arr l => String.mk (List.intercalate [','] (l.map String.data))

/-- Numeric value of a digit list (most significant first). -/
def natOfDigits (l : List Char) : Nat :=
  l.foldl (fun a c => a * 10 + (c.toNat - 48)) 0

/-- JS whitespace characters (the fragment of `\s` the runtime meets). -/
def isJsWhitespace (c : Char) : Bool :=
  c = ' ' ∨ c = '\t' ∨ c = '\n' ∨ c = '\r'

/-- ASCII uppercase of one character. -/
def asciiUpperChar (c : Char) : Char :=
  if 'a' ≤ c ∧ c ≤ 'z' then Char.ofNat (c.toNat - 32) else c

/-- JS `s.toUpperCase()` on the ASCII fragment. -/
def upperStr (s : String) : String :=
  String.mk (s.data.map asciiUpperChar)

/-- Whether `pre` is a prefix of `s` (character lists). -/
def listStartsWith : List Char → List Char → Bool
  | [], _ => true
  | _ :: _, [] => false
  | p :: ps, c :: cs => p = c ∧ listStartsWith ps cs

/-- Whether `sub` occurs inside `hay` (character lists), `sub` nonempty. -/
def listContainsSub (sub : List Char) : List Char → Bool
  | [] => false
  | c :: cs => listStartsWith sub (c :: cs) ∨ listContainsSub sub cs

/-- JS `s.startsWith(pre)`. -/
def jsStartsWith (s pre : String) : Bool :=
  listStartsWith pre.data s.data

/-- JS `s.endsWith(suf)`. -/
def jsEndsWith (s suf : String) : Bool :=
  listStartsWith suf.data.reverse s.data.reverse

/-- Split a character list on every occurrence of `sep`, keeping empty
pieces, as JS `String.prototype.split` with a one-character separator. -/
def splitOnCharAux (sep : Char) : List Char → List Char → List (List Char)
  | [], acc => [acc.reverse]
  | c :: cs, acc =>
      if c = sep then acc.reverse :: splitOnCharAux sep cs []
      else splitOnCharAux sep cs (c :: acc)

/-- JS `s.split(sep)` for a one-character separator. -/
def splitOnChar (sep : Char) (s : String) : List String :=
  (splitOnCharAux sep s.data []).map String.mk

/-- JS whitespace trim (both ends). -/
def jsTrim (s : String) : String :=
  String.mk (((s.data.dropWhile isJsWhitespace).reverse.dropWhile isJsWhitespace).reverse)

/-- JS `Number(s)` for a string, modelled on plain decimal literals:
whitespace-only is `0`, an optional sign followed by digits (with an
optional fractional part) parses exactly, anything else is `NaN`
(`none`). Exponents/hex are outside the runtime's input fragment. -/
def strToNumber (s : String) : Option Rat :=
  let t := (jsTrim s).data
  if t.isEmpty then some 0 else
  let sgn : Rat := match t with | '-' :: _ => -1 | _ => 1
  let body : List Char := match t with | '-' :: r => r | '+' :: r => r | r => r
  match splitOnCharAux '.' body [] with
  | [i] =>
      if ¬ i.isEmpty ∧ i.all Char.isDigit then some (sgn * (natOfDigits i : Rat))
      else none
  | [i, f] =>
      if (¬ i.isEmpty ∨ ¬ f.isEmpty) ∧ i.all Char.isDigit ∧ f.all Char.isDigit then
        some (sgn * ((natOfDigits i : Rat) + (natOfDigits f : Rat) / ((10 : Rat) ^ f.length)))
      else none
  | _ => none

/-- JS `Number(v)`: `null` is `0`, booleans are `0`/`1`, strings parse
as decimals, arrays coerce through their string form; `none` is `NaN`. -/
def jsToNumber : Value → Option Rat
  | .null => some 0
  | .num n => some n
  | .bool b => some (if b then 1 else 0)
  | .str s => strToNumber s
  | .arr l => strToNumber (String.intercalate "," l)

/-- JS `haystack.includes(needle)`: substring containment. -/
def jsIncludes (haystack needle : String) : Bool :=
  if needle.data.isEmpty then true else listContainsSub needle.data haystack.data

/-- Condition-rule comparison operators (`src/types.ts`). -/
inductive ConditionOperator where
  | equals | not_equals | contains | not_contains
  | greater_than | less_than | is_empty | is_not_empty
  | starts_with | ends_with
deriving Repr, DecidableEq, BEq

/-- A single field-comparison rule (`src/types.ts` `ConditionRule`). -/
structure ConditionRule where
  id : String
  questionId : String
  operator : ConditionOperator
  value : String
deriving Repr, DecidableEq

/-- Boolean connective over a condition's rules. -/
inductive ConditionLogic where
  | AND | OR
deriving Repr, DecidableEq, BEq

/-- A boolean expression over answer values (`src/types.ts` `Condition`). -/
structure Condition where
  id : String
  logic : ConditionLogic
  rules : List ConditionRule
deriving Repr, DecidableEq

/-- The preview's answer map (`formData`): field key to value.  A key
absent from the list reads as `Value.null` (JS `undefined`). -/
abbrev AnswerMap := List (String × Value)

/-- Read `formData[key]`; a missing key is `undefined` (`Value.null`). -/
def lookupAnswer (fd : AnswerMap) (key : String) : Value :=
  match List.find? (fun p => p.1 = key) fd with
  | some p => p.2
  | none => .null

/-- The operator dispatch of `evaluateRule` (`FormPreview.tsx` lines
130-181), applied to the already-resolved value. -/
def applyOperator (value : Value) (op : ConditionOperator) (compareValue : String) : Bool :=
  match op with
  | .equals =>
      match value with
      | .arr l => l.contains compareValue
      | .str s => s = compareValue
      | _ => false
  | .not_equals =>
      match value with
      | .arr l => ! l.contains compareValue
      | .str s => s ≠ compareValue
      | _ => true
  | .contains =>
      match value with
      | .arr l => l.any (fun v => jsIncludes v compareValue)
      | v => jsIncludes (jsString v) compareValue
  | .not_contains =>
      match value with
      | .arr l => ! l.any (fun v => jsIncludes v compareValue)
      | v => ! jsIncludes (jsString v) compareValue
  | .is_empty =>
      match value with
      | .arr l => l.length = 0
      | v => ¬ jsTruthy v ∨ v = .str ""
  | .is_not_empty =>
      match value with
      | .arr l => l.length > 0
      | v => jsTruthy v ∧ v ≠ .str ""
  | .greater_than =>
      match jsToNumber value, strToNumber compareValue with
      | some a, some b => a > b
      | _, _ => false
  | .less_than =>
      match jsToNumber value, strToNumber compareValue with
      | some a, some b => a < b
      | _, _ => false
  | .starts_with =>
      match value with
      | .arr l => l.any (fun v => jsStartsWith v compareValue)
      | v => jsStartsWith (jsString v) compareValue
  | .ends_with =>
      match value with
      | .arr l => l.any (fun v => jsEndsWith v compareValue)
      | v => jsEndsWith (jsString v) compareValue

/-- The `value || ''` resolution applied to the looked-up answer. -/
def jsOrEmptyString (v : Value) : Value :=
  if jsTruthy v then v else .str ""

/-- `evaluateRule` (`FormPreview.tsx` line 126): resolve
`formData[rule.questionId] || ''` and dispatch on the operator. -/
def evaluateRule (fd : AnswerMap) (rule : ConditionRule) : Bool :=
  applyOperator (jsOrEmptyString (lookupAnswer fd rule.questionId)) rule.operator rule.value

/-- `evaluateCondition` (`FormPreview.tsx` line 119): `AND` requires
every rule true (vacuously true when empty), `OR` at least one. -/
def evaluateCondition (fd : AnswerMap) (c : Condition) : Bool :=
  let results := c.rules.map (evaluateRule fd)
  match c.logic with
  | .AND => results.all (fun r => r)
  | .OR => results.any (fun r => r)

/-- Question field kinds (`src/types.ts` `QuestionType`, plus the
`helper_text` kind the preview handles). -/
inductive QuestionType where
  | text | textarea | email | phone | number | currency
  | radio | checkbox | select | multiselect
  | date | time | datetime | file | rating | slider
  | hidden | eircode | numberplate | privacy_policy | helper_text
deriving Repr, DecidableEq, BEq

/-- Per-question validation block (`src/types.ts` `QuestionValidation`).
Absent optional fields are `none` (JS `undefined`). -/
structure QuestionValidation where
  required : Bool
  minLength : Option Nat
  maxLength : Option Nat
  min : Option Rat
  max : Option Rat
  pattern : Option String
  patternMessage : Option String
deriving Repr, DecidableEq

/-- The runtime-relevant fields of a question (`src/types.ts`
`Question`); label/placeholder/grid fields are presentation-only and
carry no runtime semantics. -/
structure Question where
  id : String
  type : QuestionType
  fieldName : Option String
  validation : QuestionValidation
  conditionalDisplay : Option Condition
  useDateInputMask : Bool
deriving Repr, DecidableEq

/-- Navigation target kinds (`src/types.ts` `NavigationTarget.type`). -/
inductive TargetType where
  | next | previous | specific | submit | url
deriving Repr, DecidableEq, BEq

/-- A navigation target (`src/types.ts` `NavigationTarget`). -/
structure NavigationTarget where
  type : TargetType
  stepId : Option String
deriving Repr, DecidableEq

/-- A priority-ordered conditional navigation rule (`src/types.ts`
`ConditionalNavigation`). -/
structure ConditionalNavigation where
  id : String
  condition : Condition
  target : NavigationTarget
  priority : Int
deriving Repr, DecidableEq

/-- The runtime-relevant fields of a step (`src/types.ts` `Step`);
title/description/grid/button-label fields are presentation-only. -/
structure Step where
  id : String
  questions : List Question
  conditionalNavigation : List ConditionalNavigation
  defaultNextStep : Option String
  defaultPrevStep : Option String
  validateOnContinue : Bool
  autoAdvance : Bool
deriving Repr, DecidableEq

/-- Answer-map key of a question: `question.fieldName || question.id`
(`FormPreview.tsx` line 202). -/
def fieldKey (q : Question) : String :=
  match q.fieldName with
  | some f => if f ≠ "" then f else q.id
  | none => q.id

/-- `shouldShowQuestion` (`FormPreview.tsx` line 185): visible unless a
`conditionalDisplay` condition evaluates false. -/
def shouldShowQuestion (fd : AnswerMap) (q : Question) : Bool :=
  match q.conditionalDisplay with
  | none => true
  | some c => evaluateCondition fd c

/-- Strip JS `\s` characters, as `String(value).replace(/\s/g, '')`. -/
def stripWhitespace (s : String) : String :=
  String.mk (s.toList.filter (fun c => ¬ isJsWhitespace c))

/-- The fixed allow-list of Irish routing keys accepted by the eircode
validator (`FormPreview.tsx` line 195, transcribed verbatim). -/
def eircodeRoutingKeys : List String :=
  ["A41","A42","A45","A63","A67","A75","A81","A82","A83","A84","A85","A86",
   "A91","A92","A94","A96","A98","C15","D01","D02","D03","D04","D05","D06",
   "D6W","D07","D08","D09","D10","D11","D12","D13","D14","D15","D16","D17",
   "D18","D20","D22","D24","E21","E25","E32","E34","E41","E45","E53","E91",
   "F12","F23","F26","F28","F31","F35","F42","F45","F52","F56","F91","F92",
   "F93","F94","H12","H14","H16","H18","H23","H53","H54","H62","H65","H71",
   "H91","K32","K34","K36","K45","K56","K67","K78","N37","N39","N41","N91",
   "P12","P14","P17","P24","P25","P31","P32","P36","P43","P47","P51","P56",
   "P61","P67","P72","P75","P81","P85","R14","R21","R32","R35","R42","R45",
   "R51","R56","R93","R95","T12","T23","T34","T45","T56","V14","V15","V23",
   "V31","V35","V42","V92","V93","V94","V95","W12","W23","W34","W91","X35",
   "X42","X91","Y14","Y21","Y25","Y34","Y35"]

/-- The email regex `^[^\s@]+@[^\s@]+\.[^\s@]+$` as a predicate: exactly
one `@`, a nonempty whitespace-free local part, and a whitespace-free
domain containing a dot with at least one character on each side. -/
def emailOk (s : String) : Bool :=
  match splitOnCharAux '@' s.data [] with
  | [a, b] =>
      ¬ a.isEmpty ∧ a.all (fun c => ¬ isJsWhitespace c) ∧
      b.all (fun c => ¬ isJsWhitespace c) ∧
      ((b.drop 1).dropLast).contains '.'
  | _ => false

/-- The phone regex `^[\d\s\-+()]{7,}$` as a predicate. -/
def phoneOk (s : String) : Bool :=
  s.data.length ≥ 7 ∧
  s.data.all (fun c => c.isDigit ∨ isJsWhitespace c ∨ c = '-' ∨ c = '+' ∨ c = '(' ∨ c = ')')

/-- The number-plate regex `^\d{2,3}-[A-Z]{1,2}-\d{1,6}$` as a
predicate on the already-uppercased value. -/
def numberplateOk (s : String) : Bool :=
  match splitOnCharAux '-' s.data [] with
  | [a, b, c] =>
      2 ≤ a.length ∧ a.length ≤ 3 ∧ a.all Char.isDigit ∧
      1 ≤ b.length ∧ b.length ≤ 2 ∧ b.all (fun ch => 'A' ≤ ch ∧ ch ≤ 'Z') ∧
      1 ≤ c.length ∧ c.length ≤ 6 ∧ c.all Char.isDigit
  | _ => false

/-- Gregorian leap year. -/
def isLeapYear (y : Int) : Bool :=
  y % 4 = 0 ∧ (y % 100 ≠ 0 ∨ y % 400 = 0)

/-- Days in a (1-based) month, as `new Date(year, month, 0).getDate()`
yields for the range-checked months 1-12. -/
def daysInMonth (year month : Int) : Nat :=
  if month = 2 then (if isLeapYear year then 29 else 28)
  else if month = 4 ∨ month = 6 ∨ month = 9 ∨ month = 11 then 30
  else 31

/-- JS `parseInt(s, 10)`: skip leading whitespace, optional sign,
longest digit run; `NaN` (`none`) when no digits follow. -/
def jsParseInt (s : String) : Option Int :=
  let l := s.toList.dropWhile isJsWhitespace
  let sgn : Int := match l with | '-' :: _ => -1 | _ => 1
  let rest := match l with | '-' :: r => r | '+' :: r => r | r => r
  let ds := rest.takeWhile Char.isDigit
  if ds.isEmpty then none else some (sgn * (natOfDigits ds : Int))

/-- The date-input-mask check (`FormPreview.tsx` lines 246-268):
`none` when the value passes, otherwise the error message. -/
def dateMaskError (s : String) : Option String :=
  if s.data.length ≠ 10 then some "Please enter a complete date (DD/MM/YYYY)"
  else
    match splitOnChar '/' s with
    | [p0, p1, p2] =>
        if p0.data.length ≠ 2 ∨ p1.data.length ≠ 2 ∨ p2.data.length ≠ 4 then
          some "Please enter date in DD/MM/YYYY format"
        else
          match jsParseInt p0, jsParseInt p1, jsParseInt p2 with
          | some day, some month, some year =>
              if day < 1 ∨ day > 31 ∨ month < 1 ∨ month > 12 ∨ year < 1900 ∨ year > 2100 then
                some "Please enter a valid date (DD/MM/YYYY)"
              else if day > (daysInMonth year month : Int) then
                some ("Invalid day for this month (max " ++ toString (daysInMonth year month) ++ ")")
              else none
          | _, _, _ => some "Please enter a valid date (DD/MM/YYYY)"
    | _ => some "Please enter date in DD/MM/YYYY format"

/-- The datetime-input-mask check (`FormPreview.tsx` lines 271-300). -/
def datetimeMaskError (s : String) : Option String :=
  if s.data.length ≠ 16 then some "Please enter a complete date and time (DD/MM/YYYY HH:MM)"
  else
    let datePart := String.mk (s.data.take 10)
    let timePart := String.mk (s.data.drop 11)
    match splitOnChar '/' datePart with
    | [p0, p1, p2] =>
        if p0.data.length ≠ 2 ∨ p1.data.length ≠ 2 ∨ p2.data.length ≠ 4 then
          some "Please enter date in DD/MM/YYYY format"
        else
          let timeParts := splitOnChar ':' timePart
          let hours := jsParseInt (timeParts.getD 0 "")
          let minutes := jsParseInt (timeParts.getD 1 "")
          match jsParseInt p0, jsParseInt p1, jsParseInt p2 with
          | some day, some month, some year =>
              if day < 1 ∨ day > 31 ∨ month < 1 ∨ month > 12 ∨ year < 1900 ∨ year > 2100 then
                some "Please enter a valid date (DD/MM/YYYY)"
              else
                match hours, minutes with
                | some h, some m =>
                    if h < 0 ∨ h > 23 ∨ m < 0 ∨ m > 59 then
                      some "Please enter a valid time (00:00 - 23:59)"
                    else if day > (daysInMonth year month : Int) then
                      some ("Invalid day for this month (max " ++ toString (daysInMonth year month) ++ ")")
                    else none
                | _, _ => some "Please enter a valid time (00:00 - 23:59)"
          | _, _, _ => some "Please enter a valid date (DD/MM/YYYY)"
    | _ => some "Please enter date in DD/MM/YYYY format"

/-- Later check's message overwrites the earlier one: the effect of a
further `newErrors[key] = msg` assignment on the field's single slot. -/
def jsOverwrite (newer older : Option String) : Option String :=
  match newer with
  | some m => some m
  | none => older

/-- Email format check (`FormPreview.tsx` line 221). -/
def emailError (q : Question) (v : Value) : Option String :=
  if q.type = .email ∧ ¬ emailOk (jsString v) then
    some "Please enter a valid email address"
  else none

/-- Phone format check (`FormPreview.tsx` line 224). -/
def phoneError (q : Question) (v : Value) : Option String :=
  if q.type = .phone ∧ ¬ phoneOk (jsString v) then
    some "Please enter a valid phone number"
  else none

/-- Eircode format check (`FormPreview.tsx` lines 227-233): strip
whitespace and uppercase, then require length at least 7 and the first
three characters in the routing-key allow-list. -/
def eircodeError (q : Question) (v : Value) : Option String :=
  if q.type = .eircode then
    let eircodeVal := upperStr (stripWhitespace (jsString v))
    if eircodeVal.data.length < 7 ∨
        ¬ eircodeRoutingKeys.contains (String.mk (eircodeVal.data.take 3)) then
      some "Please enter a valid Eircode (e.g. D02 X285)"
    else none
  else none

/-- Number-plate format check (`FormPreview.tsx` lines 236-243). -/
def numberplateError (q : Question) (v : Value) : Option String :=
  if q.type = .numberplate ∧ ¬ numberplateOk (upperStr (jsString v)) then
    some "Please enter a valid number plate (e.g. 191-D-12345)"
  else none

/-- Date-mask check applied to masked date questions. -/
def dateError (q : Question) (v : Value) : Option String :=
  if q.type = .date ∧ q.useDateInputMask then dateMaskError (jsString v) else none

/-- Datetime-mask check applied to masked datetime questions. -/
def datetimeError (q : Question) (v : Value) : Option String :=
  if q.type = .datetime ∧ q.useDateInputMask then datetimeMaskError (jsString v) else none

/-- `minLength` check (`FormPreview.tsx` line 302); a zero `minLength`
is falsy in JS and disables the check. -/
def minLengthError (q : Question) (v : Value) : Option String :=
  match q.validation.minLength with
  | some n =>
      if n ≠ 0 ∧ (jsString v).data.length < n then
        some ("Minimum " ++ toString n ++ " characters required")
      else none
  | none => none

/-- `maxLength` check (`FormPreview.tsx` line 305). -/
def maxLengthError (q : Question) (v : Value) : Option String :=
  match q.validation.maxLength with
  | some n =>
      if n ≠ 0 ∧ (jsString v).data.length > n then
        some ("Maximum " ++ toString n ++ " characters allowed")
      else none
  | none => none

/-- `min` check (`FormPreview.tsx` line 308): explicit
`!== undefined` test, numeric coercion, `NaN` comparisons false. -/
def minError (q : Question) (v : Value) : Option String :=
  match q.validation.min with
  | some m =>
      match jsToNumber v with
      | some x => if x < m then some ("Minimum value is " ++ ratToJsString m) else none
      | none => none
  | none => none

/-- `max` check (`FormPreview.tsx` line 311). -/
def maxError (q : Question) (v : Value) : Option String :=
  match q.validation.max with
  | some m =>
      match jsToNumber v with
      | some x => if x > m then some ("Maximum value is " ++ ratToJsString m) else none
      | none => none
  | none => none

/-- Message used when the user pattern fails:
`patternMessage || 'Invalid format'`. -/
def patternMsgOf (q : Question) : String :=
  match q.validation.patternMessage with
  | some m => if m ≠ "" then m else "Invalid format"
  | none => "Invalid format"

/-- A regex oracle modelling the platform `RegExp`: given the pattern
and the subject string, `none` means the pattern does not compile (the
`RegExp` constructor throws a `SyntaxError`), `some b` is the `test`
result of the compiled regex. -/
def RegexOracle := String → String → Option Bool

/-- The format-check block of `validateStep` (`FormPreview.tsx` lines
219-320) for one present value: each check overwrites the field's
single error slot in source order; the user-pattern check constructs a
`RegExp` and propagates its compile failure as a thrown exception
(`Except.error`). -/
def formatError (rt : RegexOracle) (q : Question) (v : Value) : Except Unit (Option String) :=
  let e : Option String := none
  let e := jsOverwrite (emailError q v) e
  let e := jsOverwrite (phoneError q v) e
  let e := jsOverwrite (eircodeError q v) e
  let e := jsOverwrite (numberplateError q v) e
  let e := jsOverwrite (dateError q v) e
  let e := jsOverwrite (datetimeError q v) e
  let e := jsOverwrite (minLengthError q v) e
  let e := jsOverwrite (maxLengthError q v) e
  let e := jsOverwrite (minError q v) e
  let e := jsOverwrite (maxError q v) e
  match q.validation.pattern with
  | some p =>
      if p ≠ "" then
        match rt p (jsString v) with
        | none => .error ()
        | some b => .ok (jsOverwrite (if ¬ b then some (patternMsgOf q) else none) e)
      else .ok e
  | none => .ok e

/-- True when the required check fires (`FormPreview.tsx` lines
206-217): an empty array, or a falsy non-array value. -/
def requiredMissing (v : Value) : Bool :=
  match v with
  | .arr l => l.isEmpty
  | _ => ¬ jsTruthy v ∨ v = .str ""

/-- The whole per-question body of `validateStep`: required check
(short-circuiting), then format checks only when the value is truthy. -/
def questionError (rt : RegexOracle) (q : Question) (fd : AnswerMap) : Except Unit (Option String) :=
  let v := lookupAnswer fd (fieldKey q)
  if q.validation.required ∧ requiredMissing v then .ok (some "This field is required")
  else if jsTruthy v then formatError rt q v
  else .ok none

/-- Set `newErrors[key] = msg`: overwrite an existing entry for the key
or append a new one. -/
def insertErr (l : List (String × String)) (k msg : String) : List (String × String) :=
  if l.any (fun p => p.1 = k) then
    l.map (fun p => if p.1 = k then (k, msg) else p)
  else l ++ [(k, msg)]

/-- The `forEach` loop of `validateStep` (`FormPreview.tsx` lines
197-321): skip invisible questions and non-input kinds, then record the
per-question error under its field key. -/
def validateQuestions (rt : RegexOracle) (fd : AnswerMap) :
    List Question → List (String × String) → Except Unit (List (String × String))
  | [], errs => .ok errs
  | q :: qs, errs =>
      if ¬ shouldShowQuestion fd q then validateQuestions rt fd qs errs
      else if q.type = .hidden ∨ q.type = .helper_text then validateQuestions rt fd qs errs
      else
        match questionError rt q fd with
        | .error e => .error e
        | .ok none => validateQuestions rt fd qs errs
        | .ok (some msg) => validateQuestions rt fd qs (insertErr errs (fieldKey q) msg)

/-- `validateStep` (`FormPreview.tsx` line 191): the produced error
map; the step is valid iff it is empty. -/
def validateStep (rt : RegexOracle) (step : Step) (fd : AnswerMap) :
    Except Unit (List (String × String)) :=
  validateQuestions rt fd step.questions []

/-- `findIndex` over the step list by id: the index, or `-1`. -/
def findStepIndex (steps : List Step) (sid : String) : Int :=
  match steps.findIdx? (fun s => s.id = sid) with
  | some i => (i : Int)
  | none => -1

/-- Stable insertion for the descending priority sort: a rule is placed
before every rule of lower-or-equal priority that followed it. -/
def insertByPriority (x : ConditionalNavigation) :
    List ConditionalNavigation → List ConditionalNavigation
  | [] => [x]
  | y :: ys => if y.priority ≤ x.priority then x :: y :: ys else y :: insertByPriority x ys

/-- `[...rules].sort((a, b) => b.priority - a.priority)`
(`FormPreview.tsx` line 330): JS `Array.prototype.sort` is stable, and
any stable sort by this comparator yields this unique descending-order
list. -/
def sortByPriorityDesc : List ConditionalNavigation → List ConditionalNavigation
  | [] => []
  | x :: xs => insertByPriority x (sortByPriorityDesc xs)

/-- The rule-scanning loop of `getNextStepIndex` (`FormPreview.tsx`
lines 334-345): first rule whose condition holds resolves; a `submit`
target is `-1`, a `specific` target resolves its step id (falling
through when absent or unresolvable), `next` is the current index plus
one; `previous`/`url` targets fall through. -/
def resolveConditionalNav (steps : List Step) (ci : Nat) (fd : AnswerMap) :
    List ConditionalNavigation → Option Int
  | [] => none
  | nav :: rest =>
      if evaluateCondition fd nav.condition then
        match nav.target.type with
        | .submit => some (-1)
        | .specific =>
            match nav.target.stepId with
            | some sid =>
                if sid ≠ "" then
                  if findStepIndex steps sid ≠ -1 then some (findStepIndex steps sid)
                  else resolveConditionalNav steps ci fd rest
                else resolveConditionalNav steps ci fd rest
            | none => resolveConditionalNav steps ci fd rest
        | .next => some ((ci : Int) + 1)
        | _ => resolveConditionalNav steps ci fd rest
      else resolveConditionalNav steps ci fd rest

/-- `getNextStepIndex` (`FormPreview.tsx` lines 328-354): conditional
rules in stable descending priority order, then `defaultNextStep` when
set and resolvable, then the sequential next index. -/
def getNextStepIndex (steps : List Step) (ci : Nat) (step : Step) (fd : AnswerMap) : Int :=
  match resolveConditionalNav steps ci fd (sortByPriorityDesc step.conditionalNavigation) with
  | some r => r
  | none =>
      match step.defaultNextStep with
      | some d =>
          if d ≠ "" then
            if findStepIndex steps d ≠ -1 then findStepIndex steps d else (ci : Int) + 1
          else (ci : Int) + 1
      | none => (ci : Int) + 1

/-- Where a resolved index leads. -/
inductive NavResolution where
  | submit
  | toStep (n : Nat)
deriving Repr, DecidableEq

/-- The submit test of `handleContinue` (`FormPreview.tsx` line 371):
`-1` or an index beyond the last step submits the form. -/
def interpretNextIndex (steps : List Step) (n : Int) : NavResolution :=
  if n = -1 ∨ n ≥ (steps.length : Int) then .submit else .toStep n.toNat

/-- Outcome of a continue-button press. -/
inductive ContinueResult where
  | noop
  | abortValidation (errors : List (String × String))
  | submitForm
  | transition (n : Nat)
deriving Repr, DecidableEq

/-- A continue-button press outcome together with whether `validateStep`
was invoked on the way. `abortValidation` leaves the current step index
unchanged and does not submit. -/
structure ContinueOutcome where
  ranValidation : Bool
  result : ContinueResult
deriving Repr, DecidableEq

/-- `handleContinue` (`FormPreview.tsx` lines 356-378): no-op while
transitioning; validation runs only when no conditional-navigation rule
matches and `validateOnContinue` is set, aborting on a non-empty error
map; otherwise the resolved index either submits or transitions. -/
def handleContinue (rt : RegexOracle) (steps : List Step) (ci : Nat) (step : Step)
    (fd : AnswerMap) (isTransitioning : Bool) : Except Unit ContinueOutcome :=
  if isTransitioning then .ok ⟨false, .noop⟩
  else
    let matched := step.conditionalNavigation.any (fun nav => evaluateCondition fd nav.condition)
    let proceed := fun (ranV : Bool) =>
      ContinueOutcome.mk ranV
        (match interpretNextIndex steps (getNextStepIndex steps ci step fd) with
         | .submit => .submitForm
         | .toStep n => .transition n)
    if ¬ matched ∧ step.validateOnContinue then
      match validateStep rt step fd with
      | .error e => .error e
      | .ok errs =>
          if ¬ errs.isEmpty then .ok ⟨true, .abortValidation errs⟩
          else .ok (proceed true)
    else .ok (proceed false)

/-- Progress-bar modes (`src/types.ts` `ProgressMode`). -/
inductive ProgressMode where
  | linear | step_based | weighted | exponential | question_based
deriving Repr, DecidableEq, BEq

/-- The runtime-relevant progress configuration (`src/types.ts`
`ProgressConfig`): `stepWeights` is the JS record keyed by step id. -/
structure ProgressConfig where
  mode : ProgressMode
  stepWeights : List (String × Rat)
  exponentialBase : Option Rat
deriving Repr, DecidableEq

/-- `weights[s.id] || 1`: a missing or zero weight counts as 1. -/
def weightOf (weights : List (String × Rat)) (s : Step) : Rat :=
  match List.find? (fun p => p.1 = s.id) weights with
  | some p => if p.2 = 0 then 1 else p.2
  | none => 1

/-- The progress `useMemo` (`FormPreview.tsx` lines 22-51).  With an
empty step list `currentStep` is undefined and the memo returns 0 (the
`totalSteps === 0` guard covers the same case); otherwise the mode
selects the formula.  Division is exact rational division. -/
def computeProgress (cfg : ProgressConfig) (steps : List Step) (ci : Nat)
    (fd : AnswerMap) : Rat :=
  if steps.isEmpty then 0
  else
    let totalSteps : Rat := (steps.length : Rat)
    match cfg.mode with
    | .linear => (((ci : Rat) + 1) / totalSteps) * 100
    | .step_based => (((ci : Rat) + 1) / totalSteps) * 100
    | .weighted =>
        let totalWeight := steps.foldl (fun sum s => sum + weightOf cfg.stepWeights s) 0
        let completedWeight :=
          (steps.take (ci + 1)).foldl (fun sum s => sum + weightOf cfg.stepWeights s) 0
        (completedWeight / totalWeight) * 100
    | .exponential =>
        let base := match cfg.exponentialBase with
          | some b => if b = 0 then 2 else b
          | none => 2
        ((base ^ (ci + 1 : Nat) - 1) / (base ^ (steps.length : Nat) - 1)) * 100
    | .question_based =>
        let totalQuestions : Nat := (steps.map (fun s => s.questions.length)).foldl (· + ·) 0
        let answeredQuestions : Nat := (fd.filter (fun p => jsTruthy p.2)).length
        if totalQuestions > 0 then
          ((answeredQuestions : Rat) / (totalQuestions : Rat)) * 100
        else 0

/-- A pending auto-advance `setTimeout` callback (`FormPreview.tsx`
lines 423-430).  The callback closes over the scheduling render's
`currentStepIndex`, `currentStep` and `formData` (the answer map before
the change that scheduled it), and over `isTransitioning` as it was
then (`false`, or the guard would not have scheduled). -/
structure AutoAdvanceTimer where
  capturedIndex : Nat
  capturedStep : Step
  capturedFormData : AnswerMap
deriving Repr, DecidableEq

/-- The preview component's transient state: step index, answer and
error maps, submission flags, the transition/navigation guards, and the
queue of scheduled auto-advance timers not yet elapsed. -/
structure PreviewState where
  currentStepIndex : Nat
  formData : AnswerMap
  errors : List (String × String)
  submitted : Bool
  isSubmitting : Bool
  isTransitioning : Bool
  isNavigating : Bool
  pendingAutoAdvance : List AutoAdvanceTimer
deriving Repr, DecidableEq

/-- The initial preview state. -/
def initialPreviewState : PreviewState :=
  { currentStepIndex := 0, formData := [], errors := [], submitted := false,
    isSubmitting := false, isTransitioning := false, isNavigating := false,
    pendingAutoAdvance := [] }

/-- Write `formData[key] = value` (the `setFormData` spread update). -/
def setAnswer (fd : AnswerMap) (key : String) (v : Value) : AnswerMap :=
  if fd.any (fun p => p.1 = key) then
    fd.map (fun p => if p.1 = key then (key, v) else p)
  else fd ++ [(key, v)]

/-- Delete `errors[key]` (the error-clearing branch of
`handleInputChange`). -/
def removeErr (l : List (String × String)) (k : String) : List (String × String) :=
  l.filter (fun p => p.1 ≠ k)

/-- The auto-advance guard of `handleInputChange` (`FormPreview.tsx`
lines 415-420): the step auto-advances, has exactly one question, the
new value looks valid, and no navigation or transition is in flight. -/
def autoAdvanceGuard (step : Step) (v : Value) (st : PreviewState) : Bool :=
  step.autoAdvance && step.questions.length == 1 &&
  !(v == .str "") && !(v == .null) &&
  (match v with | .arr l => !l.isEmpty | _ => true) &&
  !st.isNavigating && !st.isTransitioning

/-- `handleInputChange` (`FormPreview.tsx` lines 403-433): store the
answer, clear the field's error, and - when the auto-advance guard
holds - set the `isNavigating` flag and schedule a delayed navigation
whose callback closes over the current render's index, step and
(pre-update) answer map. -/
def applyInputChange (step : Step) (q : Question) (v : Value) (st : PreviewState) :
    PreviewState :=
  let key := fieldKey q
  let st1 := { st with formData := setAnswer st.formData key v,
                       errors := removeErr st.errors key }
  if autoAdvanceGuard step v st then
    { st1 with isNavigating := true,
               pendingAutoAdvance :=
                 st1.pendingAutoAdvance ++ [⟨st.currentStepIndex, step, st.formData⟩] }
  else st1

/-- `resetPreview` (`FormPreview.tsx` lines 446-451): step index 0,
empty answer and error maps, not submitted.  The code clears no
scheduled timers and resets neither `isNavigating` nor
`isTransitioning`, so those survive the reset unchanged. -/
def resetPreview (st : PreviewState) : PreviewState :=
  { st with currentStepIndex := 0, formData := [], errors := [], submitted := false }

/-- The elapsing of a scheduled auto-advance timer (`FormPreview.tsx`
lines 423-430 firing, then `transitionToStep`, lines 54-68).  The next
index is computed from the captured render's index, step and answer
map.  `transitionToStep`'s re-entry guard reads the closure's stale
`isTransitioning`, which was `false` at scheduling time, so the
transition always proceeds; the two fade phases are collapsed into the
commit of the new index (the claims under verification do not interleave
events inside a fade). -/
def fireAutoAdvanceTimer (steps : List Step) (t : AutoAdvanceTimer) (st : PreviewState) :
    PreviewState :=
  let nextIndex := getNextStepIndex steps t.capturedIndex t.capturedStep t.capturedFormData
  match interpretNextIndex steps nextIndex with
  | .submit => { st with submitted := true, isSubmitting := false }
  | .toStep n =>
      { st with currentStepIndex := n, isTransitioning := false, isNavigating := false }

/-- Discrete events driving the preview runtime for the timer claims. -/
inductive PreviewEvent where
  | inputChange (step : Step) (q : Question) (v : Value)
  | reset
  | timerFire
deriving Repr

/-- One event step of the preview runtime: `timerFire` pops and runs
the oldest pending timer (a no-op when none is pending). -/
def stepPreview (steps : List Step) (st : PreviewState) : PreviewEvent → PreviewState
  | .inputChange step q v => applyInputChange step q v st
  | .reset => resetPreview st
  | .timerFire =>
      match st.pendingAutoAdvance with
      | [] => st
      | t :: rest => fireAutoAdvanceTimer steps t { st with pendingAutoAdvance := rest }

/-- Run a sequence of preview events from a state. -/
def runPreview (steps : List Step) (st : PreviewState) : List PreviewEvent → PreviewState
  | [] => st
  | e :: es => runPreview steps (stepPreview steps st e) es

/-! Concrete fixtures used to evaluate the embedded runtime on the
specified examples. -/

/-- A validation block with nothing enabled. -/
def noValidation : QuestionValidation := ⟨false, none, none, none, none, none, none⟩

/-- A text question whose answers land under the key `X`. -/
def questionX : Question := ⟨"qx", .text, some "X", noValidation, none, false⟩

/-- A bare step with the given id, questions and navigation rules. -/
def mkStep (sid : String) (qs : List Question) (navs : List ConditionalNavigation) : Step :=
  ⟨sid, qs, navs, none, none, false, false⟩

/-- An always-true condition (an `AND` over no rules). -/
def alwaysTrue : Condition := ⟨"c0", .AND, []⟩

/-- The condition "field X equals yes". -/
def condXYes : Condition := ⟨"c1", .AND, [⟨"r1", "X", .equals, "yes"⟩]⟩

/-- The priority-5, always-true, target-`next` rule of the example. -/
def ruleLo : ConditionalNavigation := ⟨"n2", alwaysTrue, ⟨.next, none⟩, 5⟩

/-- The priority-10, X-equals-yes, target-`specific C` rule. -/
def ruleHi : ConditionalNavigation := ⟨"n1", condXYes, ⟨.specific, some "C"⟩, 10⟩

/-- Step A of the priority example, carrying the two rules with the
lower-priority one listed first. -/
def stepA : Step := mkStep "A" [questionX] [ruleLo, ruleHi]

/-- Step list A, B, C for the priority example. -/
def steps3 : List Step := [stepA, mkStep "B" [] [], mkStep "C" [] []]

/-- Plain step A with no rules, no defaults, no questions. -/
def plainA : Step := mkStep "A" [] []

/-- Plain step B. -/
def plainB : Step := mkStep "B" [] []

/-- Plain step C. -/
def plainC : Step := mkStep "C" [] []

/-- The plain three-step list of the sequential example. -/
def plain3 : List Step := [plainA, plainB, plainC]

/-- A four-step list for the progress examples. -/
def steps4 : List Step := [plainA, plainB, plainC, mkStep "D" [] []]

/-- A linear-mode progress configuration. -/
def cfgLinear : ProgressConfig := ⟨.linear, [], none⟩

/-- A step-based-mode progress configuration. -/
def cfgStepBased : ProgressConfig := ⟨.step_based, [], none⟩

/-- A regex oracle on which every pattern compiles and matches; stands
for runs that never reach a failing or non-compiling pattern. -/
def rtTotal : RegexOracle := fun _ _ => some true

/-- A regex oracle recording the platform fact that the pattern `"("`
does not compile (the JS `RegExp` constructor throws
`SyntaxError: Invalid regular expression: Unterminated group`), while
other patterns used alongside it compile. -/
def rtParen : RegexOracle := fun p _ => if p = "(" then none else some true

/-! Helper lemmas about the stable priority sort and the rule scan. -/

lemma mem_insertByPriority {x y : ConditionalNavigation} {l : List ConditionalNavigation} :
    y ∈ insertByPriority x l ↔ y = x ∨ y ∈ l := by
  induction l with
  | nil => simp [insertByPriority]
  | cons z zs ih =>
      by_cases h : z.priority ≤ x.priority
      · simp only [insertByPriority, if_pos h, List.mem_cons]
      · simp only [insertByPriority, if_neg h, List.mem_cons, ih]
        tauto

lemma pairwise_insertByPriority {x : ConditionalNavigation} {l : List ConditionalNavigation}
    (h : l.Pairwise (fun a b => b.priority ≤ a.priority)) :
    (insertByPriority x l).Pairwise (fun a b => b.priority ≤ a.priority) := by
  induction l with
  | nil => simp [insertByPriority]
  | cons z zs ih =>
      rcases List.pairwise_cons.mp h with ⟨hz, hzs⟩
      by_cases hle : z.priority ≤ x.priority
      · rw [insertByPriority, if_pos hle]
        refine List.pairwise_cons.mpr ⟨?_, h⟩
        intro b hb
        rcases List.mem_cons.mp hb with rfl | hb
        · exact hle
        · exact le_trans (hz b hb) hle
      · rw [insertByPriority, if_neg hle]
        refine List.pairwise_cons.mpr ⟨?_, ih hzs⟩
        intro b hb
        rcases mem_insertByPriority.mp hb with rfl | hb
        · exact (lt_of_not_le hle).le
        · exact hz b hb

lemma pairwise_sortByPriorityDesc (l : List ConditionalNavigation) :
    (sortByPriorityDesc l).Pairwise (fun a b => b.priority ≤ a.priority) := by
  induction l with
  | nil => simp [sortByPriorityDesc]
  | cons x xs ih => exact pairwise_insertByPriority ih

lemma filter_insertByPriority (x : ConditionalNavigation) (l : List ConditionalNavigation)
    (p : Int) :
    (insertByPriority x l).filter (fun n => n.priority = p) =
      if x.priority = p then x :: l.filter (fun n => n.priority = p)
      else l.filter (fun n => n.priority = p) := by
  induction l with
  | nil => by_cases h : x.priority = p <;> simp [insertByPriority, h]
  | cons z zs ih =>
      by_cases hle : z.priority ≤ x.priority
      · rw [insertByPriority, if_pos hle]
        by_cases hx : x.priority = p <;> simp [List.filter_cons, hx]
      · rw [insertByPriority, if_neg hle]
        by_cases hz : z.priority = p
        · have hx : ¬ x.priority = p := by
            intro hx
            exact hle (by rw [hx, hz])
          simp [List.filter_cons, hz, hx, ih]
        · by_cases hx : x.priority = p <;> simp [List.filter_cons, hz, hx, ih]

lemma filter_sortByPriorityDesc (l : List ConditionalNavigation) (p : Int) :
    (sortByPriorityDesc l).filter (fun n => n.priority = p) =
      l.filter (fun n => n.priority = p) := by
  induction l with
  | nil => rfl
  | cons x xs ih =>
      rw [sortByPriorityDesc, filter_insertByPriority, List.filter_cons]
      by_cases h : x.priority = p <;> simp [h, ih]

lemma mem_sortByPriorityDesc {y : ConditionalNavigation} {l : List ConditionalNavigation} :
    y ∈ sortByPriorityDesc l ↔ y ∈ l := by
  induction l with
  | nil => simp [sortByPriorityDesc]
  | cons x xs ih =>
      simp only [sortByPriorityDesc, mem_insertByPriority, List.mem_cons, ih]

lemma resolveConditionalNav_all_false (steps : List Step) (ci : Nat) (fd : AnswerMap)
    {l : List ConditionalNavigation}
    (h : ∀ n ∈ l, evaluateCondition fd n.condition = false) :
    resolveConditionalNav steps ci fd l = none := by
  induction l with
  | nil => rfl
  | cons nav rest ih =>
      have hn := h nav (List.mem_cons_self nav rest)
      rw [resolveConditionalNav, hn]
      simp only [Bool.false_eq_true, if_false]
      exact ih (fun m hm => h m (List.mem_cons_of_mem nav hm))

lemma resolveConditionalNav_drop_false (steps : List Step) (ci : Nat) (fd : AnswerMap)
    (pre l : List ConditionalNavigation)
    (hpre : ∀ n ∈ pre, evaluateCondition fd n.condition = false) :
    resolveConditionalNav steps ci fd (pre ++ l) = resolveConditionalNav steps ci fd l := by
  induction pre with
  | nil => rfl
  | cons n ns ih =>
      have hn := hpre n (List.mem_cons_self n ns)
      rw [List.cons_append, resolveConditionalNav, hn]
      simp only [Bool.false_eq_true, if_false]
      exact ih (fun m hm => hpre m (List.mem_cons_of_mem n hm))

/-- Claim C1: the navigation resolver considers a step's conditional
rules sorted by priority descending (stably, preserving the original
relative order of equal priorities) and resolves the first rule whose
condition evaluates true: a `submit` target yields `-1` (submit), a
`specific` target yields the index of its step id when resolvable, and
a `next` target yields the current index plus one. -/
theorem nav_priority_resolution :
    (∀ l : List ConditionalNavigation,
        (sortByPriorityDesc l).Pairwise (fun a b => b.priority ≤ a.priority))
  ∧ (∀ (l : List ConditionalNavigation) (p : Int),
        (sortByPriorityDesc l).filter (fun n => n.priority = p) =
          l.filter (fun n => n.priority = p))
  ∧ (∀ (steps : List Step) (ci : Nat) (fd : AnswerMap) (step : Step)
        (pre rest : List ConditionalNavigation) (nav : ConditionalNavigation),
        sortByPriorityDesc step.conditionalNavigation = pre ++ nav :: rest →
        (∀ n ∈ pre, evaluateCondition fd n.condition = false) →
        evaluateCondition fd nav.condition = true →
          (nav.target.type = .submit → getNextStepIndex steps ci step fd = -1)
        ∧ (∀ sid, nav.target.type = .specific → nav.target.stepId = some sid →
             sid ≠ "" → findStepIndex steps sid ≠ -1 →
             getNextStepIndex steps ci step fd = findStepIndex steps sid)
        ∧ (∀ sid, nav.target.type = .specific → nav.target.stepId = some sid →
             sid ≠ "" → findStepIndex steps sid = -1 →
             resolveConditionalNav steps ci fd (sortByPriorityDesc step.conditionalNavigation) =
               resolveConditionalNav steps ci fd rest)
        ∧ (nav.target.type = .next → getNextStepIndex steps ci step fd = (ci : Int) + 1)) := by
  refine ⟨pairwise_sortByPriorityDesc, filter_sortByPriorityDesc, ?_⟩
  intro steps ci fd step pre rest nav hsort hpre hnav
  have hres : resolveConditionalNav steps ci fd (sortByPriorityDesc step.conditionalNavigation)
      = resolveConditionalNav steps ci fd (nav :: rest) := by
    rw [hsort]
    exact resolveConditionalNav_drop_false steps ci fd pre (nav :: rest) hpre
  refine ⟨?_, ?_, ?_, ?_⟩
  · intro ht
    have hr : resolveConditionalNav steps ci fd (nav :: rest) = some (-1) := by
      simp [resolveConditionalNav, hnav, ht]
    unfold getNextStepIndex
    rw [hres, hr]
  · intro sid ht hsid hne hfind
    have hr : resolveConditionalNav steps ci fd (nav :: rest) =
        some (findStepIndex steps sid) := by
      simp [resolveConditionalNav, hnav, ht, hsid, hne, hfind]
    unfold getNextStepIndex
    rw [hres, hr]
  · intro sid ht hsid hne hfind
    rw [hres]
    simp [resolveConditionalNav, hnav, ht, hsid, hne, hfind]
  · intro ht
    have hr : resolveConditionalNav steps ci fd (nav :: rest) = some ((ci : Int) + 1) := by
      simp [resolveConditionalNav, hnav, ht]
    unfold getNextStepIndex
    rw [hres, hr]

/-- Claim C1 witness: the spec's priority example - rules
`{priority 10, X equals "yes", specific C}` and
`{priority 5, always-true, next}` with X answered "yes" resolve to step
C (index 2), via the theorem applied at the sorted two-rule list. -/
theorem nav_priority_resolution_witness :
    getNextStepIndex steps3 0 stepA [("X", Value.str "yes")] = findStepIndex steps3 "C"
    ∧ findStepIndex steps3 "C" = 2 := by
  constructor
  · exact (nav_priority_resolution.2.2 steps3 0 [("X", Value.str "yes")] stepA
      [] [ruleLo] ruleHi (by decide) (by decide) (by decide)).2.1 "C" (by decide) rfl
      (by decide) (by decide)
  · decide

/-- Claim C2: when no conditional rule's condition is true the resolver
returns the index of `defaultNextStep` when set and resolvable and the
sequential next index otherwise; a `-1` or out-of-range result means
submit; the plain `[A,B,C]` walk gives B, then C, then submit. -/
theorem nav_default_resolution :
    (∀ (steps : List Step) (ci : Nat) (fd : AnswerMap) (step : Step),
        (∀ n ∈ step.conditionalNavigation, evaluateCondition fd n.condition = false) →
          ((step.defaultNextStep = none → getNextStepIndex steps ci step fd = (ci : Int) + 1)
        ∧ (∀ d, step.defaultNextStep = some d → d ≠ "" → findStepIndex steps d ≠ -1 →
              getNextStepIndex steps ci step fd = findStepIndex steps d)
        ∧ (∀ d, step.defaultNextStep = some d → d ≠ "" → findStepIndex steps d = -1 →
              getNextStepIndex steps ci step fd = (ci : Int) + 1)))
  ∧ (∀ (steps : List Step) (n : Int), n = -1 ∨ (steps.length : Int) ≤ n →
        interpretNextIndex steps n = .submit)
  ∧ interpretNextIndex plain3 (getNextStepIndex plain3 0 plainA []) = .toStep 1
  ∧ interpretNextIndex plain3 (getNextStepIndex plain3 1 plainB []) = .toStep 2
  ∧ interpretNextIndex plain3 (getNextStepIndex plain3 2 plainC []) = .submit := by
  refine ⟨?_, ?_, by decide, by decide, by decide⟩
  · intro steps ci fd step hall
    have hnone : resolveConditionalNav steps ci fd
        (sortByPriorityDesc step.conditionalNavigation) = none :=
      resolveConditionalNav_all_false steps ci fd
        (fun n hn => hall n (mem_sortByPriorityDesc.mp hn))
    refine ⟨?_, ?_, ?_⟩
    · intro hd
      unfold getNextStepIndex
      rw [hnone, hd]
    · intro d hd hne hfind
      unfold getNextStepIndex
      rw [hnone, hd]
      simp [hne, hfind]
    · intro d hd hne hfind
      unfold getNextStepIndex
      rw [hnone, hd]
      simp [hne, hfind]
  · intro steps n h
    unfold interpretNextIndex
    rcases h with h | h
    · rw [if_pos (Or.inl h)]
    · rw [if_pos (Or.inr h)]

/-- Claim C2 witness: the general default-resolution part applied at the
plain three-step list. -/
theorem nav_default_resolution_witness :
    getNextStepIndex plain3 0 plainA [] = 1 := by
  have h := (nav_default_resolution.1 plain3 0 [] plainA (by decide)).1 rfl
  simpa using h

/-- The value resolution the claim describes - `answers[qid] ?? ''` -
replacing only a missing (null/undefined) answer by the empty string
and passing any present value (including `0` and `false`) to the
operator dispatch as-is; stated for comparison with `evaluateRule`. -/
def evaluateRuleNullish (fd : AnswerMap) (rule : ConditionRule) : Bool :=
  applyOperator
    (match lookupAnswer fd rule.questionId with
     | .null => .str ""
     | v => v) rule.operator rule.value

/-- Claim C4 counterexample: with the present answer `false` under key
"x", the code's `|| ''` resolution replaces it by `''`, so a
`contains "false"` rule evaluates false, whereas the claimed `?? ''`
resolution would compare `String(false) = "false"` as-is and evaluate
true. -/
theorem rule_value_resolution_cex :
    evaluateRule [("x", Value.bool false)] ⟨"r", "x", .contains, "false"⟩ = false
    ∧ evaluateRuleNullish [("x", Value.bool false)] ⟨"r", "x", .contains, "false"⟩ = true := by
  decide

/-- Claim C4 (amended): the evaluator resolves
`answers[rule.questionId] || ''` - any falsy answer (missing, null,
`false`, `0`, `''`) is replaced by `''` before the operator dispatch,
any truthy answer is compared as-is, and a questionId absent from the
answer map evaluates against `''` rather than raising (fail-open). -/
theorem rule_value_resolution :
    ∀ (fd : AnswerMap) (rule : ConditionRule),
      (jsTruthy (lookupAnswer fd rule.questionId) = false →
        evaluateRule fd rule = applyOperator (Value.str "") rule.operator rule.value)
      ∧ (jsTruthy (lookupAnswer fd rule.questionId) = true →
        evaluateRule fd rule =
          applyOperator (lookupAnswer fd rule.questionId) rule.operator rule.value)
      ∧ (List.find? (fun p => p.1 = rule.questionId) fd = none →
        evaluateRule fd rule = applyOperator (Value.str "") rule.operator rule.value) := by
  intro fd rule
  refine ⟨?_, ?_, ?_⟩
  · intro h
    unfold evaluateRule jsOrEmptyString
    rw [h]
    simp
  · intro h
    unfold evaluateRule jsOrEmptyString
    rw [h]
    simp
  · intro h
    unfold evaluateRule jsOrEmptyString lookupAnswer
    rw [h]
    simp [jsTruthy]

/-- Claim C4 (amended) witness: a missing key compares against `''` and
a present truthy answer is compared as-is. -/
theorem rule_value_resolution_witness :
    evaluateRule [] ⟨"r", "x", .equals, "yes"⟩ = applyOperator (Value.str "") .equals "yes"
    ∧ evaluateRule [("x", Value.str "yes")] ⟨"r", "x", .equals, "yes"⟩ =
        applyOperator (lookupAnswer [("x", Value.str "yes")] "x") .equals "yes" := by
  constructor
  · exact (rule_value_resolution [] ⟨"r", "x", .equals, "yes"⟩).1 (by decide)
  · exact (rule_value_resolution [("x", Value.str "yes")] ⟨"r", "x", .equals, "yes"⟩).2.1
      (by decide)

/-- Claim C5: on an array-valued answer, `contains` evaluates true iff
some element's string form contains the compare value, and
`not_contains` is its exact logical negation - true iff no element
contains it. -/
theorem array_contains_semantics :
    ∀ (fd : AnswerMap) (rid rid2 qid cmp : String) (l : List String),
      lookupAnswer fd qid = Value.arr l →
        (evaluateRule fd ⟨rid, qid, .contains, cmp⟩ = true ↔
          ∃ s ∈ l, jsIncludes s cmp = true)
      ∧ (evaluateRule fd ⟨rid2, qid, .not_contains, cmp⟩ = true ↔
          ∀ s ∈ l, jsIncludes s cmp = false)
      ∧ evaluateRule fd ⟨rid2, qid, .not_contains, cmp⟩ =
          ! evaluateRule fd ⟨rid, qid, .contains, cmp⟩ := by
  intro fd rid rid2 qid cmp l h
  have hv : jsOrEmptyString (lookupAnswer fd qid) = Value.arr l := by
    rw [h]
    rfl
  have hc : evaluateRule fd ⟨rid, qid, .contains, cmp⟩ = l.any (fun s => jsIncludes s cmp) := by
    unfold evaluateRule
    dsimp only
    rw [hv]
    rfl
  have hn : evaluateRule fd ⟨rid2, qid, .not_contains, cmp⟩ =
      ! l.any (fun s => jsIncludes s cmp) := by
    unfold evaluateRule
    dsimp only
    rw [hv]
    rfl
  refine ⟨?_, ?_, ?_⟩
  · rw [hc]
    simp [List.any_eq_true]
  · rw [hn]
    simp [Bool.not_eq_true', List.any_eq_false]
  · rw [hn, hc]

/-- Claim C5 witness: the element list `["abc","de"]` with compare value
"b": `contains` true, `not_contains` false, and the negation identity. -/
theorem array_contains_semantics_witness :
    evaluateRule [("x", Value.arr ["abc", "de"])] ⟨"r", "x", .contains, "b"⟩ = true
    ∧ evaluateRule [("x", Value.arr ["abc", "de"])] ⟨"r2", "x", .not_contains, "b"⟩ =
        ! evaluateRule [("x", Value.arr ["abc", "de"])] ⟨"r", "x", .contains, "b"⟩ := by
  constructor
  · exact (array_contains_semantics [("x", Value.arr ["abc", "de"])] "r" "r2" "x" "b"
      ["abc", "de"] (by decide)).1.mpr ⟨"abc", by decide, by decide⟩
  · exact (array_contains_semantics [("x", Value.arr ["abc", "de"])] "r" "r2" "x" "b"
      ["abc", "de"] (by decide)).2.2

/-- The sole (radio) question of the auto-advance step. -/
def questionAuto : Question := ⟨"qa", .radio, none, noValidation, none, false⟩

/-- A step with `autoAdvance` set and exactly one question. -/
def stepAuto : Step := ⟨"S0", [questionAuto], [], none, none, false, true⟩

/-- The two-step list for the reset/timer trace. -/
def steps2auto : List Step := [stepAuto, mkStep "S1" [] []]

/-- Claim C6: the failing reset/timer interaction.  Answering the
auto-advance step's question schedules a delayed transition; resetting
alone leaves the index at 0, but the pending timer survives the reset
(`resetPreview` cancels nothing), and when it later elapses it commits
the step index 1, disturbing the post-reset state. -/
theorem reset_pending_timer_fires :
    (runPreview steps2auto initialPreviewState
      [.inputChange stepAuto questionAuto (.str "x"), .reset]).currentStepIndex = 0
    ∧ (runPreview steps2auto initialPreviewState
      [.inputChange stepAuto questionAuto (.str "x"), .reset]).pendingAutoAdvance ≠ []
    ∧ (runPreview steps2auto initialPreviewState
      [.inputChange stepAuto questionAuto (.str "x"), .reset, .timerFire]).currentStepIndex
        = 1 := by
  decide

/-- A text question carrying the non-compilable user pattern `"("`. -/
def questionPattern : Question :=
  ⟨"qp", .text, none, ⟨false, none, none, none, none, some "(", none⟩, none, false⟩

/-- A step holding only the bad-pattern question. -/
def stepPattern : Step := mkStep "P" [questionPattern] []

/-- Claim C7: `validateStep` throws on a visible question with a present
value and the non-compilable pattern `"("` (the `RegExp` constructor
raises before any test), while the identical step under an oracle on
which the pattern compiles validates normally - the crash comes from
pattern compilation, not from the value. -/
theorem validate_pattern_crash :
    validateStep rtParen stepPattern [("qp", Value.str "a")] = .error ()
    ∧ validateStep rtTotal stepPattern [("qp", Value.str "a")] = .ok [] := by
  decide

/-- Claim C10: in `linear` and in `step_based` mode the progress equals
`(currentIndex+1)/totalSteps * 100`, and an empty step list yields 0. -/
theorem progress_linear_step_based :
    ∀ (cfg : ProgressConfig) (steps : List Step) (ci : Nat) (fd : AnswerMap),
      cfg.mode = .linear ∨ cfg.mode = .step_based →
        (steps = [] → computeProgress cfg steps ci fd = 0)
      ∧ (steps ≠ [] →
          computeProgress cfg steps ci fd = (((ci : Rat) + 1) / ((steps.length : Nat) : Rat)) * 100) := by
  intro cfg steps ci fd hmode
  constructor
  · intro h
    subst h
    rfl
  · intro h
    have hne : steps.isEmpty = false := by
      simpa [List.isEmpty_iff] using h
    rcases hmode with hm | hm <;> simp [computeProgress, hne, hm]

/-- Claim C10 witness: with four steps, index 0 gives 25 and index 3
gives 100 in `linear` mode, and index 1 gives 50 in `step_based` mode. -/
theorem progress_linear_step_based_witness :
    computeProgress cfgLinear steps4 0 [] = 25
    ∧ computeProgress cfgLinear steps4 3 [] = 100
    ∧ computeProgress cfgStepBased steps4 1 [] = 50 := by
  refine ⟨?_, ?_, ?_⟩
  · rw [(progress_linear_step_based cfgLinear steps4 0 [] (Or.inl rfl)).2 (by decide)]
    norm_num [steps4, plain3]
  · rw [(progress_linear_step_based cfgLinear steps4 3 [] (Or.inl rfl)).2 (by decide)]
    norm_num [steps4, plain3]
  · rw [(progress_linear_step_based cfgStepBased steps4 1 [] (Or.inr rfl)).2 (by decide)]
    norm_num [steps4, plain3]

/-- A required text question for the validation-abort example. -/
def questionRequired : Question :=
  ⟨"qr", .text, none, ⟨true, none, none, none, none, none, none⟩, none, false⟩

/-- A step with `validateOnContinue` set holding the required question. -/
def stepValidate : Step := ⟨"R", [questionRequired], [], none, none, true, false⟩

/-- Claim C3 counterexample: a step with `validateOnContinue` unset and
no conditional-navigation rules skips validation on continue even
though no rule's condition is true, refuting "skips validation iff some
rule's condition is true". -/
theorem continue_validation_gate_cex :
    handleContinue rtTotal plain3 0 plainA [] false = .ok ⟨false, .transition 1⟩
    ∧ plainA.conditionalNavigation.any (fun nav => evaluateCondition [] nav.condition) = false
    ∧ plainA.validateOnContinue = false := by
  decide

/-- Claim C3 (amended): the continue handler runs step validation iff no
conditional-navigation rule's condition is true and
`step.validateOnContinue` is set (so validation is also skipped when
`validateOnContinue` is unset); when it runs and the error map is
non-empty, navigation aborts - the step index stays and no submit
occurs. -/
theorem continue_validation_gate :
    (∀ (rt : RegexOracle) (steps : List Step) (ci : Nat) (step : Step) (fd : AnswerMap)
        (out : ContinueOutcome),
        handleContinue rt steps ci step fd false = .ok out →
        (out.ranValidation = true ↔
          (step.conditionalNavigation.any (fun nav => evaluateCondition fd nav.condition) = false
           ∧ step.validateOnContinue = true)))
  ∧ (∀ (rt : RegexOracle) (steps : List Step) (ci : Nat) (step : Step) (fd : AnswerMap)
        (errs : List (String × String)),
        step.conditionalNavigation.any (fun nav => evaluateCondition fd nav.condition) = false →
        step.validateOnContinue = true →
        validateStep rt step fd = .ok errs → errs ≠ [] →
        handleContinue rt steps ci step fd false = .ok ⟨true, .abortValidation errs⟩) := by
  constructor
  · intro rt steps ci step fd out h
    rw [handleContinue] at h
    simp only [Bool.false_eq_true, if_false] at h
    by_cases hc : (¬ step.conditionalNavigation.any
        (fun nav => evaluateCondition fd nav.condition) = true
        ∧ step.validateOnContinue = true)
    · rw [if_pos hc] at h
      have hm : step.conditionalNavigation.any
          (fun nav => evaluateCondition fd nav.condition) = false :=
        Bool.not_eq_true _ ▸ (Bool.eq_false_iff.mpr (fun he => hc.1 he))
      rcases hval : validateStep rt step fd with e | errs
      · rw [hval] at h
        cases h
      · rw [hval] at h
        dsimp only at h
        by_cases hne : ¬ errs.isEmpty = true
        · rw [if_pos hne] at h
          cases h
          simp [hm, hc.2]
        · rw [if_neg hne] at h
          cases h
          simp [hm, hc.2]
    · rw [if_neg hc] at h
      cases h
      simp only [iff_false, Bool.false_eq_true, false_iff]
      intro hcontra
      exact hc ⟨by simp [hcontra.1], hcontra.2⟩
  · intro rt steps ci step fd errs hm hv hval hne
    rw [handleContinue]
    simp only [Bool.false_eq_true, if_false]
    rw [if_pos ⟨by simp [hm], hv⟩, hval]
    dsimp only
    rw [if_pos (by simpa [List.isEmpty_iff] using hne)]

/-- Claim C3 (amended) witness: the required question with no answer and
`validateOnContinue` set makes continue abort with the required error,
via the theorem's abort clause. -/
theorem continue_validation_gate_witness :
    handleContinue rtTotal [stepValidate] 0 stepValidate [] false =
      .ok ⟨true, .abortValidation [("qr", "This field is required")]⟩ := by
  exact continue_validation_gate.2 rtTotal [stepValidate] 0 stepValidate []
    [("qr", "This field is required")] (by decide) rfl (by decide) (by decide)

lemma jsOverwrite_none_left (c : Option String) : jsOverwrite none c = c := rfl

lemma jsOverwrite_none_right (c : Option String) : jsOverwrite c none = c := by
  rcases c with _ | m <;> rfl

/-- An eircode question with no other validation. -/
def questionEircode : Question := ⟨"qe", .eircode, none, noValidation, none, false⟩

/-- A step holding only the eircode question. -/
def stepEircode : Step := mkStep "E" [questionEircode] []

/-- Claim C8: a present (non-empty string) answer to an eircode question
with no other validations passes validation iff the whitespace-stripped
uppercased value has length at least 7 and its first three characters
are in the fixed routing-key allow-list. -/
theorem eircode_validation :
    ∀ (rt : RegexOracle) (fd : AnswerMap) (q : Question) (s : String) (step : Step),
      q.type = .eircode →
      q.validation.minLength = none → q.validation.maxLength = none →
      q.validation.min = none → q.validation.max = none →
      q.validation.pattern = none →
      q.conditionalDisplay = none →
      step.questions = [q] →
      lookupAnswer fd (fieldKey q) = .str s → s ≠ "" →
      (validateStep rt step fd = .ok [] ↔
        (7 ≤ (upperStr (stripWhitespace s)).data.length ∧
         eircodeRoutingKeys.contains
           (String.mk ((upperStr (stripWhitespace s)).data.take 3)) = true)) := by
  intro rt fd q s step ht hminL hmaxL hmin hmax hpat hdisp hqs hv hs
  have hshow : shouldShowQuestion fd q = true := by
    simp [shouldShowQuestion, hdisp]
  have hth : ¬ (q.type = .hidden ∨ q.type = .helper_text) := by
    rw [ht]
    decide
  have h1 : ¬ (q.validation.required = true ∧ requiredMissing (Value.str s) = true) := by
    intro hcontra
    have h := hcontra.2
    simp [requiredMissing, jsTruthy, hs] at h
  have h2 : jsTruthy (Value.str s) = true := by
    simp [jsTruthy, hs]
  have hfe : formatError rt q (Value.str s) = .ok (eircodeError q (Value.str s)) := by
    rw [formatError, hpat]
    simp +decide [emailError, phoneError, numberplateError, dateError, datetimeError,
      minLengthError, maxLengthError, minError, maxError, ht, hminL, hmaxL, hmin, hmax,
      jsOverwrite_none_left, jsOverwrite_none_right]
  have hqe : questionError rt q fd = .ok (eircodeError q (Value.str s)) := by
    simp only [questionError, hv]
    rw [if_neg h1, if_pos h2]
    exact hfe
  have hec_iff : eircodeError q (Value.str s) = none ↔
      (7 ≤ (upperStr (stripWhitespace s)).data.length ∧
       eircodeRoutingKeys.contains
         (String.mk ((upperStr (stripWhitespace s)).data.take 3)) = true) := by
    rw [eircodeError, if_pos ht]
    dsimp only [jsString]
    by_cases hcond : ((upperStr (stripWhitespace s)).data.length < 7 ∨
        ¬ eircodeRoutingKeys.contains (String.mk ((upperStr (stripWhitespace s)).data.take 3))
          = true)
    · rw [if_pos hcond]
      constructor
      · intro hfalse
        cases hfalse
      · intro hrhs
        exfalso
        rcases hcond with hlt | hnc
        · omega
        · exact hnc hrhs.2
    · rw [if_neg hcond]
      push_neg at hcond
      constructor
      · intro _
        exact ⟨by omega, hcond.2⟩
      · intro _
        rfl
  have hvs : validateStep rt step fd =
      (match eircodeError q (Value.str s) with
       | some msg => Except.ok [(fieldKey q, msg)]
       | none => Except.ok []) := by
    rw [validateStep, hqs, validateQuestions]
    rw [if_neg (by simp [hshow]), if_neg hth]
    rcases hec : eircodeError q (Value.str s) with _ | msg
    · rw [hec] at hqe
      rw [hqe]
      rfl
    · rw [hec] at hqe
      rw [hqe]
      dsimp only
      rw [validateQuestions]
      simp [insertErr]
  rw [hvs]
  rcases hec : eircodeError q (Value.str s) with _ | msg
  · dsimp only
    constructor
    · intro _
      exact hec_iff.mp hec
    · intro _
      rfl
  · dsimp only
    constructor
    · intro hcontra
      simp at hcontra
    · intro hrhs
      exfalso
      have hnone := hec_iff.mpr hrhs
      rw [hec] at hnone
      cases hnone

/-- Claim C8 witness: `"D02X285"` passes and `"Z99X285"` fails, via the
theorem at the concrete eircode step. -/
theorem eircode_validation_witness :
    validateStep rtTotal stepEircode [("qe", Value.str "D02X285")] = .ok []
    ∧ ¬ validateStep rtTotal stepEircode [("qe", Value.str "Z99X285")] = .ok [] := by
  constructor
  · exact (eircode_validation rtTotal [("qe", Value.str "D02X285")] questionEircode "D02X285"
      stepEircode rfl rfl rfl rfl rfl rfl rfl rfl (by decide) (by decide)).mpr (by decide)
  · intro h
    exact absurd ((eircode_validation rtTotal [("qe", Value.str "Z99X285")] questionEircode
      "Z99X285" stepEircode rfl rfl rfl rfl rfl rfl rfl rfl (by decide) (by decide)).mp h)
      (by decide)

/-- The user-pattern check as a single check slot (the compile-failure
case is excluded by hypothesis wherever this is used). -/
def patternCheckResult (rt : RegexOracle) (q : Question) (v : Value) : Option String :=
  match q.validation.pattern with
  | some p =>
      if p ≠ "" then
        match rt p (jsString v) with
        | some b => if ¬ b then some (patternMsgOf q) else none
        | none => none
      else none
  | none => none

/-- The validator's per-value checks in the source's fixed order:
required is handled separately, then email, phone, eircode,
numberplate, date mask, datetime mask, minLength, maxLength, min, max,
pattern. -/
def orderedCheckResults (rt : RegexOracle) (q : Question) (v : Value) : List (Option String) :=
  [emailError q v, phoneError q v, eircodeError q v, numberplateError q v,
   dateError q v, datetimeError q v, minLengthError q v, maxLengthError q v,
   minError q v, maxError q v, patternCheckResult rt q v]

/-- The message of the last failing check in an ordered check list. -/
def lastFailureMsg (l : List (Option String)) : Option String :=
  (l.filterMap id).getLast?

lemma lastFailureMsg_nil : lastFailureMsg [] = none := rfl

lemma lastFailureMsg_cons (c : Option String) (l : List (Option String)) :
    lastFailureMsg (c :: l) = jsOverwrite (lastFailureMsg l) c := by
  rcases c with _ | m
  · simp [lastFailureMsg, List.filterMap_cons, jsOverwrite_none_right]
  · rcases hfl : l.filterMap id with _ | ⟨a, fl⟩
    · have hl : lastFailureMsg l = none := by
        simp [lastFailureMsg, hfl]
      simp [lastFailureMsg, List.filterMap_cons, hfl, hl, jsOverwrite]
    · have hl : lastFailureMsg l = (a :: fl).getLast? := by
        simp [lastFailureMsg, hfl]
      have hx : (a :: fl).getLast? = some ((a :: fl).getLast (by simp)) :=
        List.getLast?_eq_getLast _ (by simp)
      simp [lastFailureMsg, List.filterMap_cons, hfl, List.getLast?_cons_cons, hl, hx,
        jsOverwrite]

lemma foldl_jsOverwrite (l : List (Option String)) :
    ∀ acc : Option String,
      l.foldl (fun e c => jsOverwrite c e) acc = jsOverwrite (lastFailureMsg l) acc := by
  induction l with
  | nil =>
      intro acc
      simp [lastFailureMsg_nil, jsOverwrite_none_left]
  | cons c l ih =>
      intro acc
      rw [List.foldl_cons, ih, lastFailureMsg_cons]
      rcases lastFailureMsg l with _ | m <;> rcases c with _ | m' <;> simp [jsOverwrite]

lemma lastFailureMsg_append_single (l : List (Option String)) (c : Option String) :
    lastFailureMsg (l ++ [c]) = jsOverwrite c (lastFailureMsg l) := by
  rcases c with _ | m
  · simp [lastFailureMsg, List.filterMap_append, jsOverwrite_none_left]
  · simp [lastFailureMsg, List.filterMap_append, jsOverwrite, List.getLast?_concat]

lemma formatError_eq_lastFailure (rt : RegexOracle) (q : Question) (v : Value)
    (hp : ∀ p, q.validation.pattern = some p → p ≠ "" → rt p (jsString v) ≠ none) :
    formatError rt q v = .ok (lastFailureMsg (orderedCheckResults rt q v)) := by
  have hsplit : orderedCheckResults rt q v =
      [emailError q v, phoneError q v, eircodeError q v, numberplateError q v,
       dateError q v, datetimeError q v, minLengthError q v, maxLengthError q v,
       minError q v, maxError q v] ++ [patternCheckResult rt q v] := rfl
  have h10 : lastFailureMsg
      [emailError q v, phoneError q v, eircodeError q v, numberplateError q v,
       dateError q v, datetimeError q v, minLengthError q v, maxLengthError q v,
       minError q v, maxError q v] =
      jsOverwrite (maxError q v) (jsOverwrite (minError q v) (jsOverwrite (maxLengthError q v)
        (jsOverwrite (minLengthError q v) (jsOverwrite (datetimeError q v)
        (jsOverwrite (dateError q v) (jsOverwrite (numberplateError q v)
        (jsOverwrite (eircodeError q v) (jsOverwrite (phoneError q v)
        (jsOverwrite (emailError q v) none))))))))) := by
    have h := foldl_jsOverwrite
      [emailError q v, phoneError q v, eircodeError q v, numberplateError q v,
       dateError q v, datetimeError q v, minLengthError q v, maxLengthError q v,
       minError q v, maxError q v] none
    rw [jsOverwrite_none_right] at h
    rw [← h]
    rfl
  rw [hsplit, lastFailureMsg_append_single, h10, formatError]
  rcases hpat : q.validation.pattern with _ | p
  · simp [patternCheckResult, hpat, jsOverwrite_none_left]
  · by_cases hpe : p ≠ ""
    · have hrt := hp p hpat hpe
      rcases hb : rt p (jsString v) with _ | b
      · exact absurd hb hrt
      · simp [patternCheckResult, hpat, hpe, hb, jsOverwrite]
    · simp [patternCheckResult, hpat, hpe, jsOverwrite_none_left]

lemma insertErr_map_fst (l : List (String × String)) (k msg : String) :
    (insertErr l k msg).map Prod.fst =
      if l.any (fun p => p.1 = k) then l.map Prod.fst else l.map Prod.fst ++ [k] := by
  rw [insertErr]
  by_cases h : l.any (fun p => p.1 = k) = true
  · rw [if_pos h, if_pos h, List.map_map]
    refine List.map_congr_left ?_
    intro p _
    by_cases hp : p.1 = k
    · simp [hp]
    · simp [hp]
  · rw [if_neg h, if_neg h, List.map_append]
    rfl

lemma insertErr_keys_nodup {l : List (String × String)} {k msg : String}
    (h : (l.map Prod.fst).Nodup) : ((insertErr l k msg).map Prod.fst).Nodup := by
  rw [insertErr_map_fst]
  by_cases hk : l.any (fun p => p.1 = k) = true
  · rw [if_pos hk]
    exact h
  · rw [if_neg hk]
    have hnot : k ∉ l.map Prod.fst := by
      intro hmem
      rcases List.mem_map.mp hmem with ⟨p, hp, hpk⟩
      exact hk (List.any_eq_true.mpr ⟨p, hp, by simp [hpk]⟩)
    simp [List.nodup_append, h, hnot]

lemma validateQuestions_keys_nodup (rt : RegexOracle) (fd : AnswerMap) :
    ∀ (qs : List Question) (errs res : List (String × String)),
      (errs.map Prod.fst).Nodup → validateQuestions rt fd qs errs = .ok res →
      (res.map Prod.fst).Nodup := by
  intro qs
  induction qs with
  | nil =>
      intro errs res h heq
      rw [validateQuestions] at heq
      cases heq
      exact h
  | cons q qs ih =>
      intro errs res h heq
      rw [validateQuestions] at heq
      by_cases h1 : ¬ shouldShowQuestion fd q = true
      · rw [if_pos h1] at heq
        exact ih errs res h heq
      · rw [if_neg h1] at heq
        by_cases h2 : (q.type = .hidden ∨ q.type = .helper_text)
        · rw [if_pos h2] at heq
          exact ih errs res h heq
        · rw [if_neg h2] at heq
          rcases hqe : questionError rt q fd with e | o
          · rw [hqe] at heq
            cases heq
          · rw [hqe] at heq
            rcases o with _ | msg
            · exact ih errs res h heq
            · exact ih _ res (insertErr_keys_nodup h) heq

/-- A text question whose `minLength` (5) and `maxLength` (3) both fail
on a four-character value. -/
def questionLen : Question :=
  ⟨"ql", .text, none, ⟨false, some 5, some 3, none, none, none, none⟩, none, false⟩

/-- Claim C9: each visible input question contributes at most one error
message, produced by running the checks in the fixed source order -
required first, short-circuiting with the required message when the
value is missing; then, for a present (truthy) value, the type-specific
and generic checks in order, each later failing check overwriting the
field's single slot, so the last-checked failure's message is the one
reported; and the error map's keys are duplicate-free. -/
theorem validator_last_error_wins :
    (∀ (rt : RegexOracle) (q : Question) (fd : AnswerMap),
      (∀ p, q.validation.pattern = some p → p ≠ "" →
        rt p (jsString (lookupAnswer fd (fieldKey q))) ≠ none) →
      questionError rt q fd = .ok (
        if q.validation.required = true
            ∧ requiredMissing (lookupAnswer fd (fieldKey q)) = true then
          some "This field is required"
        else if jsTruthy (lookupAnswer fd (fieldKey q)) = true then
          lastFailureMsg (orderedCheckResults rt q (lookupAnswer fd (fieldKey q)))
        else none))
  ∧ (∀ (rt : RegexOracle) (step : Step) (fd : AnswerMap) (errs : List (String × String)),
      validateStep rt step fd = .ok errs → (errs.map Prod.fst).Nodup) := by
  constructor
  · intro rt q fd hp
    simp only [questionError]
    by_cases hreq : (q.validation.required = true
        ∧ requiredMissing (lookupAnswer fd (fieldKey q)) = true)
    · rw [if_pos hreq, if_pos hreq]
    · rw [if_neg hreq, if_neg hreq]
      by_cases htr : jsTruthy (lookupAnswer fd (fieldKey q)) = true
      · rw [if_pos htr, if_pos htr]
        exact formatError_eq_lastFailure rt q _ hp
      · rw [if_neg htr, if_neg htr]
  · intro rt step fd errs h
    rw [validateStep] at h
    exact validateQuestions_keys_nodup rt fd step.questions [] errs (by simp) h

/-- Claim C9 witness: on the value "abcd" both `minLength` (5) and
`maxLength` (3) fail; the last-checked failure - `maxLength` - is the
message reported, via the theorem at the concrete question. -/
theorem validator_last_error_wins_witness :
    questionError rtTotal questionLen [("ql", Value.str "abcd")] =
      .ok (lastFailureMsg (orderedCheckResults rtTotal questionLen (Value.str "abcd")))
    ∧ lastFailureMsg (orderedCheckResults rtTotal questionLen (Value.str "abcd")) =
        some "Maximum 3 characters allowed" := by
  constructor
  · have h := validator_last_error_wins.1 rtTotal questionLen [("ql", Value.str "abcd")]
      (by intro p hp hne; simp [questionLen] at hp)
    rw [h]
    decide
  · decide

end FormRuntime
